import Mathlib

/-!
Shallow embedding of the rssterm feed reader (src/app.rs, src/stream.rs,
src/utils.rs, src/event.rs) and verification of its specification claims.

External collaborators (std `DefaultHasher`, the `chrono` RFC 2822 parser,
the `url` crate's URL parser, `html2text`, `textwrap`) are modelled from the
spec, which treats them as opaque pure functions; everything else is
translated from the repository source.
-/

namespace Rssterm

/-! ## Hashing (model of `std::hash::DefaultHasher`)

`FeedItem::from_atom_entry` hashes the tuple `(&entry.id, &entry.title.value,
&entry.updated)` and `FeedItem::from_rss_item` hashes
`(&item.title, &item.description, &item.pub_date)` into a `DefaultHasher`
(app.rs lines 733-734 and 770-771). -/

/-- Modelled from the spec: the 64-bit "general-purpose non-cryptographic
hash" (std `DefaultHasher`, SipHash-1-3) is an external collaborator; it is
modelled as an FNV-1a style fold over the written trace of values.  Which
values are written, and in which order, is translated from the source:
tuple components in order, a string as its characters followed by a `0xff`
terminator (as in Rust's `Hash for str`), an `Option` as a discriminant tag
followed by the payload, a timestamp as its 64-bit value. -/
def hash_fold (acc : Nat) (b : Nat) : Nat :=
  ((acc ^^^ b) * 1099511628211) % (2 ^ 64)

/-- Finish the modelled 64-bit hasher over a trace of written values. -/
def hash_finish (trace : List Nat) : Nat :=
  trace.foldl hash_fold 14695981039346656037

/-- Trace written for a Rust `String`/`str`: its characters then `0xff`. -/
def str_trace (s : String) : List Nat :=
  s.data.map Char.toNat ++ [255]

/-- Trace written for an `Option`: discriminant tag then the payload trace. -/
def opt_trace (t : String → List Nat) : Option String → List Nat
  | none => [0]
  | some s => 1 :: t s

/-- Trace written for a 64-bit timestamp value. -/
def int_trace (i : Int) : List Nat :=
  [(i % (2 ^ 64 : Int)).toNat]

/-! ## Feed entry inputs

The fields of `atom_syndication::Entry` and `rss::Item` that the conversion
functions in app.rs read. -/

/-- A link of an Atom entry (`rel` and `href` are the fields read). -/
structure AtomLink where
  rel : String
  href : String
deriving DecidableEq

/-- The fields of `atom_syndication::Entry` read by `from_atom_entry`:
`id`, `title.value`, `updated` (modelled as a timestamp), `links`,
`authors` (their names), `summary().value`, `content().value()`. -/
structure AtomEntry where
  id : String
  title : String
  updated : Int
  links : List AtomLink
  authors : List String
  summary : Option String
  content : Option String
deriving DecidableEq

/-- The fields of `rss::Item` read by `from_rss_item`: `title`,
`link`, `description`, `content`, the raw RFC 2822 `pub_date` string,
`author`, and the dublin-core creators (empty when the extension is
absent, which the source treats identically to an empty creator list). -/
structure RssItem where
  title : Option String
  link : Option String
  description : Option String
  content : Option String
  pub_date : Option String
  author : Option String
  dc_creators : List String
deriving DecidableEq

/-- The `FeedItem` struct of app.rs; `pub_date` is modelled as a timestamp. -/
structure FeedItem where
  id : Nat
  title : Option String
  url : Option String
  authors : List String
  description : Option (List String)
  content : Option (List String)
  pub_date : Int
deriving DecidableEq

/-- The 64-bit hash computed by `from_atom_entry` (app.rs 733-734):
the tuple `(&entry.id, &entry.title.value, &entry.updated)` is written. -/
def atom_entry_hash (e : AtomEntry) : Nat :=
  hash_finish (str_trace e.id ++ str_trace e.title ++ int_trace e.updated)

/-- The 64-bit hash computed by `from_rss_item` (app.rs 770-771):
the tuple `(&item.title, &item.description, &item.pub_date)` is written. -/
def rss_item_hash (i : RssItem) : Nat :=
  hash_finish (opt_trace str_trace i.title ++ opt_trace str_trace i.description
    ++ opt_trace str_trace i.pub_date)

/-- `NonZero::new(hasher.finish()).unwrap()` (app.rs 737 and 774): yields the
hash when it is non-zero and panics — `NonZero::new` returns `None` and
`unwrap` aborts — when the hash is zero.  The panic is modelled as `none`. -/
def mk_id (h : Nat) : Option Nat :=
  if h = 0 then none else some h

/-- Modelled from the spec: `html2text` conversion is an external pure
`html → lines of text` function that "falls back to the raw text on
conversion failure"; it is modelled as that fallback, `vec![html]`
(utils.rs `try_parse_html`).  Only its determinism is used by the claims. -/
def try_parse_html (html : String) : List String :=
  [html]

/-! ### Character-level string helpers

Core `String.splitOn`, `String.trim` and `String.toNat?` are implemented on
byte positions and do not reduce inside the kernel, so the string operations
the embedding needs are implemented structurally over `List Char`. -/

/-- Split a character list at every occurrence of the separator character
(the character-level analog of `str::split`). -/
def split_on_char (c : Char) : List Char → List (List Char)
  | [] => [[]]
  | x :: xs =>
    match split_on_char c xs with
    | [] => [[]]
    | y :: ys => if x = c then [] :: y :: ys else (x :: y) :: ys

/-- Trim leading and trailing whitespace (the analog of `str::trim`). -/
def trim_chars (cs : List Char) : List Char :=
  ((cs.dropWhile Char.isWhitespace).reverse.dropWhile Char.isWhitespace).reverse

/-- Accumulator loop for decimal-number parsing. -/
def parse_nat_go (acc : Nat) : List Char → Option Nat
  | [] => some acc
  | c :: cs =>
    if c.isDigit then parse_nat_go (acc * 10 + (c.toNat - 48)) cs else none

/-- Parse a non-empty all-digit character list as a decimal number. -/
def parse_nat (cs : List Char) : Option Nat :=
  if cs = [] then none else parse_nat_go 0 cs

/-- Modelled from the spec: chrono's RFC 2822 date parser is an external
collaborator; an entry with an "unparsable publish date" is dropped.  The
month-name table of the `Day, dd Mon yyyy hh:mm:ss zone` skeleton. -/
def month_num : List Char → Option Nat
  | ['J', 'a', 'n'] => some 1
  | ['F', 'e', 'b'] => some 2
  | ['M', 'a', 'r'] => some 3
  | ['A', 'p', 'r'] => some 4
  | ['M', 'a', 'y'] => some 5
  | ['J', 'u', 'n'] => some 6
  | ['J', 'u', 'l'] => some 7
  | ['A', 'u', 'g'] => some 8
  | ['S', 'e', 'p'] => some 9
  | ['O', 'c', 't'] => some 10
  | ['N', 'o', 'v'] => some 11
  | ['D', 'e', 'c'] => some 12
  | _ => none

/-- Modelled from the spec: see `month_num`; parses the RFC 2822 skeleton
into an encoded timestamp, or fails. -/
def parse_rfc2822 (s : String) : Option Int := do
  match (split_on_char ' ' (trim_chars s.data)).filter (fun t => t ≠ []) with
  | [_wday, d, mon, y, hms, _zone] =>
    let dn ← parse_nat d
    let mn ← month_num mon
    let yn ← parse_nat y
    match split_on_char ':' hms with
    | [hh, mm, ss] =>
      let h ← parse_nat hh
      let m ← parse_nat mm
      let sec ← parse_nat ss
      if 1 ≤ dn ∧ dn ≤ 31 ∧ h < 24 ∧ m < 60 ∧ sec < 60 then
        some (((((yn * 12 + mn) * 31 + dn) * 24 + h) * 60 + m) * 60 + sec : Int)
      else none
    | _ => none
  | _ => none

/-- Outcome of converting one raw feed entry: `ok` (the Rust function
returned `Some`), `dropped` (it returned `None`), or `panicked` (a panic,
here only the `unwrap` of a zero hash). -/
inductive ConvResult (α : Type) where
  | ok : α → ConvResult α
  | dropped : ConvResult α
  | panicked : ConvResult α
deriving DecidableEq

/-- Link selection in `from_atom_entry` (app.rs 726-731): prefer the link
with `rel == "alternate"`, else the first link. -/
def atom_entry_url (e : AtomEntry) : Option String :=
  ((e.links.find? (fun l => l.rel = "alternate")).orElse
    (fun _ => e.links.head?)).map (fun l => l.href)

/-- `FeedItem::from_atom_entry` (app.rs 725-752).  The `id` field of the
struct literal is evaluated first, so a zero hash panics before anything
else; otherwise the function always returns `Some`, with `pub_date` taken
from the Atom `updated` field. -/
def from_atom_entry (e : AtomEntry) : ConvResult FeedItem :=
  match mk_id (atom_entry_hash e) with
  | none => .panicked
  | some i =>
    .ok { id := i
          title := some e.title
          authors := e.authors.map (fun a => a)
          description := e.summary.map try_parse_html
          content := e.content.map try_parse_html
          url := atom_entry_url e
          pub_date := e.updated }

/-- Author selection in `from_rss_item` (app.rs 755-768): dublin-core
creators when non-empty, else the single RSS `author` field. -/
def rss_item_authors (i : RssItem) : List String :=
  if i.dc_creators.isEmpty then
    match i.author with
    | some a => [a]
    | none => []
  else i.dc_creators

/-- `FeedItem::from_rss_item` (app.rs 754-782).  The `id` field of the
struct literal is evaluated first (panicking on a zero hash); then the
`?` operators on `item.pub_date()` and on the RFC 2822 parse drop the item
(return `None`) when the publish date is absent or unparsable. -/
def from_rss_item (i : RssItem) : ConvResult FeedItem :=
  match mk_id (rss_item_hash i) with
  | none => .panicked
  | some iden =>
    match i.pub_date with
    | none => .dropped
    | some pds =>
      match parse_rfc2822 pds with
      | none => .dropped
      | some ts =>
        .ok { id := iden
              title := i.title
              url := i.link
              pub_date := ts
              description := i.description.map try_parse_html
              content := i.content.map try_parse_html
              authors := rss_item_authors i }

/-- The id of a conversion result, when one was produced. -/
def conv_id : ConvResult FeedItem → Option Nat
  | .ok item => some item.id
  | .dropped => none
  | .panicked => none

/-! ## EntryStore merge (FeedWidget::run, app.rs 327-329)

A completed fetch extends `data.items` with the new items and then sorts the
whole list with the comparator `|a, b| b.pub_date.cmp(&a.pub_date)`, i.e.
descending by publish time, using Rust's stable sort (modelled by
`List.mergeSort`). -/

/-- The comparator handed to `sort_by`: `b.pub_date.cmp(&a.pub_date)` treats
`a` as not-greater than `b` exactly when `b.pub_date ≤ a.pub_date`. -/
def pub_date_desc (a b : FeedItem) : Bool :=
  decide (b.pub_date ≤ a.pub_date)

/-- `data.items.extend(new_items); data.items.sort_by(...)` (app.rs 328-329). -/
def merge_feed_items (items new_items : List FeedItem) : List FeedItem :=
  (items ++ new_items).mergeSort pub_date_desc

/-! ## Text wrapping (utils.rs `wrap_then_apply`) -/

/-- Chunking helper for the wrap model, with explicit fuel. -/
def chunk_go (w : Nat) : Nat → List Char → List (List Char)
  | 0, _ => []
  | _, [] => []
  | fuel + 1, c :: cs => ((c :: cs).take w) :: chunk_go w fuel ((c :: cs).drop w)

/-- Modelled from the spec: `textwrap::wrap` with `break_words(true)` is an
external collaborator ("dynamically-wrapped" text); it is modelled as
breaking the line into width-sized chunks (one line for the degenerate
widths the crate also special-cases).  Only determinism and line counts are
used by the claims. -/
def wrap_text (s : String) (width : Nat) : List String :=
  if width = 0 then [s]
  else if s.data = [] then [""]
  else (chunk_go width s.data.length s.data).map (fun cs => String.mk cs)

/-! ## ExpandedItemWidget (app.rs 552-711) -/

/-- The state of `ExpandedItemWidget`: expanded entry id, cached wrapped
content, the width/height it was computed for, the scroll offset and the
scrollbar position (`sb_state`). -/
structure ExpandedItemWidget where
  id : Option Nat
  cached_render_content : Option (List String)
  curr_content_render_width : Option Nat
  curr_content_render_height : Option Nat
  scroll_offset : Nat
  sb_position : Nat
deriving DecidableEq

/-- `ExpandedItemWidget::default()`: collapsed, nothing cached, offset 0. -/
def ExpandedItemWidget.default : ExpandedItemWidget :=
  { id := none
    cached_render_content := none
    curr_content_render_width := none
    curr_content_render_height := none
    scroll_offset := 0
    sb_position := 0 }

/-- `get_max_scroll_offset` (app.rs 565-570):
`content.map_or(0, len).saturating_sub(height.unwrap_or(0))`. -/
def get_max_scroll_offset (st : ExpandedItemWidget) : Nat :=
  ((st.cached_render_content.map List.length).getD 0)
    - ((st.curr_content_render_height).getD 0)

/-- The sentinel scroll delta `isize::MIN` ("jump to first"). -/
def isize_min : Int := -(2 ^ 63)

/-- The sentinel scroll delta `isize::MAX` ("jump to last"). -/
def isize_max : Int := 2 ^ 63 - 1

/-- `ExpandedItemWidget::scroll` (app.rs 572-585): sentinel deltas jump to
the top or to the maximal offset, a negative delta saturating-subtracts,
a positive delta adds and clamps to the maximal offset; the scrollbar is
set to the resulting offset. -/
def ExpandedItemWidget.scroll (st : ExpandedItemWidget) (delta : Int) :
    ExpandedItemWidget :=
  let offset :=
    if delta = isize_min then 0
    else if delta = isize_max then get_max_scroll_offset st
    else if delta < 0 then st.scroll_offset - delta.natAbs
    else min (st.scroll_offset + delta.toNat) (get_max_scroll_offset st)
  { st with scroll_offset := offset, sb_position := offset }

/-- `sync_content_and_viewport` (app.rs 672-710): recompute the cached
wrapped content when the render width or the expanded entry changed
(`content` preferred over `description`, each source line wrapped to the
render width), record the current id/width/height, clamp the scroll offset,
and return the content — via `self.cached_render_content.as_ref().unwrap()`,
which panics (modelled as `none`) when there is nothing to render. -/
def sync_content_and_viewport (st : ExpandedItemWidget) (item : FeedItem)
    (render_width render_height : Nat) :
    Option (List String × ExpandedItemWidget) :=
  let render_width_changed : Bool :=
    match st.curr_content_render_width with
    | some w => decide (w ≠ render_width)
    | none => true
  let item_id_changed : Bool := decide (st.id ≠ some item.id)
  let cached :=
    if render_width_changed || item_id_changed then
      ((item.content.orElse (fun _ => item.description)).map
        (fun content => content.flatMap (fun l => wrap_text l render_width)))
    else st.cached_render_content
  let st1 : ExpandedItemWidget :=
    { id := some item.id
      cached_render_content := cached
      curr_content_render_height := some render_height
      curr_content_render_width := some render_width
      scroll_offset := st.scroll_offset
      sb_position := st.sb_position }
  let off := min st1.scroll_offset (get_max_scroll_offset st1)
  let st2 := { st1 with scroll_offset := off, sb_position := off }
  match st2.cached_render_content with
  | none => none
  | some content => some (content, st2)

/-- The `Close` handler while an item is expanded (app.rs 362-363):
`self.exp_item = ExpandedItemWidget::default()`. -/
def close_expanded (_st : ExpandedItemWidget) : ExpandedItemWidget :=
  ExpandedItemWidget.default

/-! ## Feed scrollbar (FeedWidget::scroll_feed, app.rs 377-399)

The cumulative row-height table `tb_cum_row_heights` is rebuilt every render
(app.rs 466-484) by accumulating each row's height plus its bottom margin
into a running total; `scroll_feed` clamps the selected index into
`[0, len-1]` and sets the scrollbar position to the cumulative height at
`selected - 1`, multiplied by `min(selected, 1)` so that the first row maps
to position 0. -/

/-- The running-total construction of `tb_cum_row_heights`: entry `i` is the
total rendered height (row height plus bottom margin) through row `i`. -/
def cum_row_heights_from (total : Nat) : List Nat → List Nat
  | [] => []
  | h :: hs => (total + h) :: cum_row_heights_from (total + h) hs

/-- `tb_cum_row_heights` built from the per-row total heights. -/
def cum_row_heights (hs : List Nat) : List Nat :=
  cum_row_heights_from 0 hs

/-- The clamped selected index of `scroll_feed`:
`selected().unwrap_or(0).clamp(0, len.saturating_sub(1))`. -/
def clamped_selected (cum : List Nat) (selected : Option Nat) : Nat :=
  min (selected.getD 0) (cum.length - 1)

/-- The scrollbar position set by `scroll_feed` (app.rs 393-398):
`cum[selected_i.saturating_sub(1)].unwrap_or(0) * min(selected_i, 1)`. -/
def scroll_feed_sb_position (cum : List Nat) (selected : Option Nat) : Nat :=
  let selected_i := clamped_selected cum selected
  (cum.getD (selected_i - 1) 0) * min selected_i 1

/-! ## RateLimitedEventStream (stream.rs)

The debouncer state machine behind `poll_next`: a pending buffered event, a
`can_emit` flag, and a running suppression timer.  Its behaviour is modelled
as a step function over the observable happenings: an upstream event arrives,
or the timer fires. -/

/-- The key codes distinguished by the stream filter and key bindings. -/
inductive KeyCode where
  | up
  | down
  | enter
  | char : Char → KeyCode
deriving DecidableEq

/-- A terminal event: a key event or any other (non-key) event kind. -/
inductive TermEvent where
  | key : KeyCode → TermEvent
  | other : TermEvent
deriving DecidableEq

/-- `should_rate_limit` (stream.rs 35-44): only `KeyCode::Up`/`KeyCode::Down`
key events (which mouse scrolling also produces) are rate limited. -/
def should_rate_limit : TermEvent → Bool
  | .key .up => true
  | .key .down => true
  | _ => false

/-- The mutable state of `RateLimitedEventStream`: whether the suppression
timer is running, the buffered pending event, and the `can_emit` flag. -/
structure RateLimitedEventStream where
  timer_running : Bool
  pending_event : Option TermEvent
  can_emit : Bool
deriving DecidableEq

/-- `RateLimitedEventStream::new` (stream.rs 17-25): no timer, no pending
event, `can_emit = true` (the Open state). -/
def RateLimitedEventStream.new : RateLimitedEventStream :=
  { timer_running := false, pending_event := none, can_emit := true }

/-- An observable happening processed by `poll_next`: an upstream event
arrives, or the running suppression timer fires. -/
inductive StreamInput where
  | arrive : TermEvent → StreamInput
  | timer_fire : StreamInput
deriving DecidableEq

/-- One step of `poll_next` (stream.rs 51-99).  Timer fires: the timer is
removed and `can_emit` set; if an event is pending it is emitted, `can_emit`
cleared and the timer restarted.  Arrival of a rate-limited event: emitted
immediately when `can_emit` (clearing it and starting the timer), otherwise
it overwrites the single pending slot.  Any other arrival passes through. -/
def rl_step (st : RateLimitedEventStream) :
    StreamInput → RateLimitedEventStream × List TermEvent
  | .timer_fire =>
    if st.timer_running then
      match st.pending_event with
      | some e =>
        ({ timer_running := true, pending_event := none, can_emit := false }, [e])
      | none =>
        ({ timer_running := false, pending_event := none, can_emit := true }, [])
    else (st, [])
  | .arrive e =>
    if should_rate_limit e then
      if st.can_emit then
        ({ st with can_emit := false, timer_running := true }, [e])
      else
        ({ st with pending_event := some e }, [])
    else (st, [e])

/-- Run the stream over a sequence of happenings, collecting emissions. -/
def rl_run (st : RateLimitedEventStream) :
    List StreamInput → RateLimitedEventStream × List TermEvent
  | [] => (st, [])
  | i :: is =>
    let p := rl_step st i
    let q := rl_run p.1 is
    (q.1, p.2 ++ q.2)

/-! ## Source-list parsing (App::run, app.rs 87-102) -/

/-- Strip one trailing carriage return, as `str::lines` does per line. -/
def strip_cr (cs : List Char) : List Char :=
  if cs.getLast? = some '\r' then cs.dropLast else cs

/-- Rust's `str::lines`: split on newlines, with no trailing empty line for
a trailing newline, and any final `\r` of a line stripped. -/
def rust_lines (s : String) : List String :=
  if s.data = [] then []
  else
    let parts := split_on_char '\n' s.data
    let parts := if s.data.getLast? = some '\n' then parts.dropLast else parts
    parts.map (fun l => String.mk (strip_cr l))

/-- Scheme recognizer: split a character list at the first `://`. -/
def scheme_split : List Char → Option (List Char × List Char)
  | [] => none
  | ':' :: '/' :: '/' :: rest => some ([], rest)
  | c :: rest => (scheme_split rest).map (fun p => (c :: p.1, p.2))

/-- Modelled from the spec: the `url` crate's parser is an external
collaborator; lines "that do not parse as absolute URLs are silently
skipped".  A line is modelled as an absolute URL iff it has a non-empty
ASCII-alphabetic scheme followed by `://` and a non-empty remainder, and
the parse-then-`to_string` round trip is modelled as the identity. -/
def is_absolute_url (s : String) : Bool :=
  match scheme_split s.data with
  | some (scheme, rest) =>
    !scheme.isEmpty && scheme.all Char.isAlpha && !rest.isEmpty
  | none => false

/-- The source-list parse in `App::run` (app.rs 87-102): the file content
(`none` models an unreadable or missing file, handled by
`unwrap_or_default`) is split into lines, each trimmed; empty lines and
lines that do not parse as URLs are skipped. -/
def parse_feed_urls : Option String → List String
  | none => []
  | some content =>
    ((rust_lines content).map (fun l => String.mk (trim_chars l.data))).filterMap
      (fun line =>
        if line ≠ "" then
          (if is_absolute_url line then some line else none)
        else none)

/-! ## Concrete feed entries used as witnesses and counterexamples -/

/-- An Atom entry with title `"t"`, summary `"s"`, timestamp `0`, id `"a"`. -/
def atom_e1 : AtomEntry :=
  { id := "a", title := "t", updated := 0, links := [], authors := []
    summary := some "s", content := none }

/-- The same entry as `atom_e1` except for its Atom id. -/
def atom_e2 : AtomEntry :=
  { atom_e1 with id := "b" }

/-- The same hashed fields as `atom_e1`, different summary and authors. -/
def atom_e3 : AtomEntry :=
  { atom_e1 with summary := none, authors := ["x"] }

/-- An RSS item with no publish date at all. -/
def rss_no_date : RssItem :=
  { title := some "t", link := none, description := none, content := none
    pub_date := none, author := none, dc_creators := [] }

/-- An RSS item carrying a well-formed RFC 2822 publish date. -/
def rss_good : RssItem :=
  { title := some "t", link := none, description := some "d", content := none
    pub_date := some "Mon, 01 Jan 2024 10:30:00 +0000", author := none
    dc_creators := [] }

/-! ## C1 — entry identity -/

/-- C1 counterexample: two Atom entries with equal title, equal descriptive
field (summary) and equal publish timestamp but different Atom ids receive
different derived ids, because `from_atom_entry` hashes `entry.id` (not the
summary).  The claimed function of `(title, descriptive_field,
published_at)` therefore does not exist. -/
theorem atom_id_not_determined_by_title_summary_updated :
    atom_e1.title = atom_e2.title ∧ atom_e1.summary = atom_e2.summary ∧
    atom_e1.updated = atom_e2.updated ∧
    conv_id (from_atom_entry atom_e1) ≠ conv_id (from_atom_entry atom_e2) := by
  decide

/-- C1 (amended): the derived id is a pure function of exactly the hashed
tuple — for an Atom entry `(entry.id, title, updated)`, for an RSS item
`(title, description, raw pub_date string)`; entries agreeing on those
fields receive the same id regardless of every other field and of fetch or
source order. -/
theorem entry_id_function_of_hashed_fields :
    (∀ e e' : AtomEntry, e.id = e'.id → e.title = e'.title →
      e.updated = e'.updated →
      conv_id (from_atom_entry e) = conv_id (from_atom_entry e')) ∧
    (∀ i i' : RssItem, i.title = i'.title → i.description = i'.description →
      i.pub_date = i'.pub_date →
      conv_id (from_rss_item i) = conv_id (from_rss_item i')) := by
  constructor
  · intro e e' h1 h2 h3
    have hh : atom_entry_hash e = atom_entry_hash e' := by
      simp [atom_entry_hash, h1, h2, h3]
    simp only [from_atom_entry, hh]
    cases mk_id (atom_entry_hash e') <;> simp [conv_id]
  · intro i i' h1 h2 h3
    have hh : rss_item_hash i = rss_item_hash i' := by
      simp [rss_item_hash, h1, h2, h3]
    simp only [from_rss_item, hh, h3]
    cases mk_id (rss_item_hash i') with
    | none => simp [conv_id]
    | some iden =>
      cases i'.pub_date with
      | none => simp [conv_id]
      | some pds => cases hp : parse_rfc2822 pds <;> simp [hp, conv_id]

/-- C1 witness: the amended theorem applied to two concrete Atom entries
agreeing on the hashed fields but differing in summary and authors. -/
theorem entry_id_function_of_hashed_fields_witness :
    conv_id (from_atom_entry atom_e1) = conv_id (from_atom_entry atom_e3) :=
  entry_id_function_of_hashed_fields.1 atom_e1 atom_e3 rfl rfl rfl

/-! ## C2 — non-zero id, zero-hash handling -/

/-- C2 counterexample: at a zero 64-bit hash the id derivation
(`NonZero::new(..).unwrap()`) panics — modelled as `none` — instead of
remapping to a fixed non-zero sentinel as claimed. -/
theorem zero_hash_id_panics_not_remapped : mk_id 0 = none := rfl

/-- C2 (amended): the id derivation yields exactly the (non-zero) hash
whenever the 64-bit hash is non-zero, and panics — it does not remap to a
sentinel — when the hash is zero; in particular neither converter can panic
on an entry whose hash is non-zero. -/
theorem id_nonzero_unless_hash_zero :
    (∀ h : Nat, h ≠ 0 → ∃ i, mk_id h = some i ∧ i ≠ 0) ∧
    mk_id 0 = none ∧
    (∀ e : AtomEntry, atom_entry_hash e ≠ 0 →
      conv_id (from_atom_entry e) = some (atom_entry_hash e)) ∧
    (∀ i : RssItem, rss_item_hash i ≠ 0 →
      from_rss_item i ≠ ConvResult.panicked) := by
  refine ⟨?_, rfl, ?_, ?_⟩
  · intro h hh
    exact ⟨h, by simp [mk_id, hh], hh⟩
  · intro e he
    simp [from_atom_entry, mk_id, he, conv_id]
  · intro i hi
    have hmk : mk_id (rss_item_hash i) = some (rss_item_hash i) := by
      simp [mk_id, hi]
    simp only [from_rss_item, hmk]
    cases i.pub_date with
    | none => simp
    | some pds => cases hp : parse_rfc2822 pds <;> simp [hp]

/-- C2 witness: the amended theorem applied at hash value 7 and at a
concrete Atom entry with non-zero hash. -/
theorem id_nonzero_unless_hash_zero_witness :
    (∃ i, mk_id 7 = some i ∧ i ≠ 0) ∧
    conv_id (from_atom_entry atom_e1) = some (atom_entry_hash atom_e1) :=
  ⟨id_nonzero_unless_hash_zero.1 7 (by decide),
   id_nonzero_unless_hash_zero.2.2.1 atom_e1 (by decide)⟩

/-! ## C10 — asymmetric drop policy -/

/-- C10: conversion of an Atom entry never drops the entry — it returns a
`FeedItem` (whose publish time is the Atom `updated` field) for every entry
whose hash is non-zero — whereas an RSS item (of non-zero hash) is dropped
exactly when its `pub_date` is absent or fails RFC 2822 parsing. -/
theorem drop_policy_asymmetric :
    (∀ e : AtomEntry, from_atom_entry e ≠ ConvResult.dropped ∧
      (atom_entry_hash e ≠ 0 →
        ∃ item, from_atom_entry e = ConvResult.ok item ∧
          item.pub_date = e.updated)) ∧
    (∀ i : RssItem, rss_item_hash i ≠ 0 →
      (from_rss_item i = ConvResult.dropped ↔
        i.pub_date = none ∨
          ∃ s, i.pub_date = some s ∧ parse_rfc2822 s = none)) := by
  constructor
  · intro e
    by_cases he : atom_entry_hash e = 0
    · exact ⟨by simp [from_atom_entry, mk_id, he], fun h => absurd he h⟩
    · refine ⟨by simp [from_atom_entry, mk_id, he], fun _ => ?_⟩
      exact ⟨{ id := atom_entry_hash e
               title := some e.title
               authors := e.authors.map (fun a => a)
               description := e.summary.map try_parse_html
               content := e.content.map try_parse_html
               url := atom_entry_url e
               pub_date := e.updated },
             by simp [from_atom_entry, mk_id, he], rfl⟩
  · intro i hi
    have hmk : mk_id (rss_item_hash i) = some (rss_item_hash i) := by
      simp [mk_id, hi]
    simp only [from_rss_item, hmk]
    cases i.pub_date with
    | none => simp
    | some pds =>
      cases hp : parse_rfc2822 pds with
      | none => simp [hp]
      | some ts => simp [hp]

/-- C10 witness: a date-less RSS item is dropped; a concrete Atom entry is
converted with its publish time equal to the `updated` field. -/
theorem drop_policy_asymmetric_witness :
    from_rss_item rss_no_date = ConvResult.dropped ∧
    (∃ item, from_atom_entry atom_e1 = ConvResult.ok item ∧
      item.pub_date = atom_e1.updated) :=
  ⟨(drop_policy_asymmetric.2 rss_no_date (by decide)).mpr (Or.inl rfl),
   (drop_policy_asymmetric.1 atom_e1).2 (by decide)⟩

/-! ## C4 — the store is sorted after every merge -/

/-- C4: for every prior store content and every batch of new entries —
hence after each merge of any sequence of merges, whatever the completion
order of the sources — the merged list is sorted non-increasing by publish
timestamp. -/
theorem merge_keeps_store_sorted_desc :
    ∀ (items new_items : List FeedItem),
      (merge_feed_items items new_items).Pairwise
        (fun a b => b.pub_date ≤ a.pub_date) := by
  intro items new_items
  have htrans : ∀ (a b c : FeedItem),
      pub_date_desc a b → pub_date_desc b c → pub_date_desc a c := by
    intro a b c hab hbc
    simp only [pub_date_desc, decide_eq_true_eq] at *
    omega
  have htotal : ∀ (a b : FeedItem), pub_date_desc a b || pub_date_desc b a := by
    intro a b
    simp only [pub_date_desc, Bool.or_eq_true, decide_eq_true_eq]
    omega
  have h := @List.sorted_mergeSort FeedItem pub_date_desc htrans htotal
    (items ++ new_items)
  exact h.imp (fun hx => by
    simpa [pub_date_desc, decide_eq_true_eq] using hx)

/-! ## C3 — a reachable panic on the render path -/

/-- The item of a conversion result, when the conversion returned `Some`. -/
def conv_item : ConvResult FeedItem → Option FeedItem
  | .ok item => some item
  | .dropped => none
  | .panicked => none

/-- A valid RSS item carrying a publish date but neither description nor
content — `from_rss_item` happily converts it. -/
def rss_minimal : RssItem :=
  { title := some "t", link := none, description := none, content := none
    pub_date := some "Mon, 01 Jan 2024 10:30:00 +0000", author := none
    dc_creators := [] }

/-- C3: the fetch path accepts an RSS item with neither description nor
content (the conversion returns an item, outer `some`), yet rendering that
item's expanded view reaches `self.cached_render_content.as_ref().unwrap()`
with `cached_render_content == None` and panics (inner `none`), so the
render path can abort the process. -/
theorem expanded_render_panics_on_bodyless_entry :
    ((conv_item (from_rss_item rss_minimal)).map
      (fun item =>
        sync_content_and_viewport ExpandedItemWidget.default item 80 24)) =
    some none := by decide

/-! ## C6 — expanded-view scroll offset bound -/

/-- Scrolling does not change the cached content or the recorded viewport
height, so the maximal offset is invariant under `scroll`. -/
theorem scroll_preserves_max (st : ExpandedItemWidget) (d : Int) :
    get_max_scroll_offset (st.scroll d) = get_max_scroll_offset st := rfl

/-- One `scroll` step keeps the offset below the maximal offset. -/
theorem scroll_stays_le (st : ExpandedItemWidget) (d : Int)
    (h : st.scroll_offset ≤ get_max_scroll_offset st) :
    (st.scroll d).scroll_offset ≤ get_max_scroll_offset st := by
  unfold ExpandedItemWidget.scroll
  dsimp only
  split_ifs
  · exact Nat.zero_le _
  · exact Nat.le_refl _
  · exact Nat.le_trans (Nat.sub_le _ _) h
  · exact Nat.min_le_right _ _

/-- C6: starting from any state whose offset is in bounds (the widget
starts at offset 0), every sequence of scroll commands — signed deltas and
the jump-to-first/jump-to-last sentinels — leaves the scroll offset in
`[0, max(0, totalWrappedLines − viewportHeight)]`; and jump-to-last on the
fresh (empty-content) state leaves the offset at 0. -/
theorem exp_scroll_offset_bounded :
    (∀ (st : ExpandedItemWidget) (cmds : List Int),
      st.scroll_offset ≤ get_max_scroll_offset st →
      (cmds.foldl ExpandedItemWidget.scroll st).scroll_offset ≤
        get_max_scroll_offset st) ∧
    (ExpandedItemWidget.default.scroll isize_max).scroll_offset = 0 := by
  constructor
  · intro st cmds
    induction cmds generalizing st with
    | nil => intro h; simpa using h
    | cons d ds ih =>
      intro h
      rw [List.foldl_cons]
      have hnext := ih (st.scroll d)
        ((scroll_preserves_max st d) ▸ scroll_stays_le st d h)
      rwa [scroll_preserves_max st d] at hnext
  · rfl

/-- A viewer state with five cached lines and a two-line viewport. -/
def viewer_st : ExpandedItemWidget :=
  { ExpandedItemWidget.default with
    cached_render_content := some ["a", "b", "c", "d", "e"]
    curr_content_render_height := some 2 }

/-- C6 witness: the bound applied to a concrete state and command list. -/
theorem exp_scroll_offset_bounded_witness :
    (([5, -2, isize_max, 3] : List Int).foldl ExpandedItemWidget.scroll
      viewer_st).scroll_offset ≤ get_max_scroll_offset viewer_st :=
  exp_scroll_offset_bounded.1 viewer_st [5, -2, isize_max, 3] (by decide)

/-! ## C9 — close, then re-expand at the same width -/

/-- When the recompute condition of `sync_content_and_viewport` holds, the
returned content is exactly the freshly wrapped preferred body, whatever
the prior state was. -/
theorem sync_recomputes (st : ExpandedItemWidget) (item : FeedItem)
    (w h : Nat)
    (hb : ((match st.curr_content_render_width with
            | some wp => decide (wp ≠ w)
            | none => true) || decide (st.id ≠ some item.id)) = true) :
    (sync_content_and_viewport st item w h).map Prod.fst =
      (item.content.orElse (fun _ => item.description)).map
        (fun content => content.flatMap (fun l => wrap_text l w)) := by
  unfold sync_content_and_viewport
  simp only [hb, if_true]
  cases hC : (item.content.orElse (fun _ => item.description)).map
      (fun content => content.flatMap (fun l => wrap_text l w)) with
  | none => simp [hC]
  | some c => simp [hC]

/-- C9: closing the expanded view (the `Close` handler replaces the widget
state with the default, dropping the cache and zeroing the offset) and
re-expanding the same entry at the same render width yields wrapped content
identical to the view before closing, for every pre-expansion state that
triggers a recompute (fresh width or different entry). -/
theorem close_then_reexpand_same_content :
    ∀ (st : ExpandedItemWidget) (item : FeedItem) (w h : Nat),
      (st.curr_content_render_width ≠ some w ∨ st.id ≠ some item.id) →
      (close_expanded st).scroll_offset = 0 ∧
      (close_expanded st).cached_render_content = none ∧
      (sync_content_and_viewport (close_expanded st) item w h).map Prod.fst =
        (sync_content_and_viewport st item w h).map Prod.fst := by
  intro st item w h hcond
  refine ⟨rfl, rfl, ?_⟩
  have hb1 : ((match (close_expanded st).curr_content_render_width with
      | some wp => decide (wp ≠ w)
      | none => true) ||
        decide ((close_expanded st).id ≠ some item.id)) = true := by
    simp [close_expanded, ExpandedItemWidget.default]
  have hb2 : ((match st.curr_content_render_width with
      | some wp => decide (wp ≠ w)
      | none => true) || decide (st.id ≠ some item.id)) = true := by
    rcases hcond with hc | hc
    · cases hw : st.curr_content_render_width with
      | none => simp
      | some wp =>
        have hne : wp ≠ w := by
          intro he
          exact hc (by rw [hw, he])
        simp [hne]
    · simp [hc]
  rw [sync_recomputes (close_expanded st) item w h hb1,
    sync_recomputes st item w h hb2]

/-- A feed item whose content body is one line of text. -/
def body_item : FeedItem :=
  { id := 2, title := some "t", url := none, authors := []
    description := none, content := some ["hello world"], pub_date := 0 }

/-- C9 witness: the round trip at a concrete fresh state, item and width. -/
theorem close_then_reexpand_same_content_witness :
    (close_expanded ExpandedItemWidget.default).scroll_offset = 0 ∧
    (close_expanded ExpandedItemWidget.default).cached_render_content = none ∧
    (sync_content_and_viewport (close_expanded ExpandedItemWidget.default)
        body_item 5 2).map Prod.fst =
      (sync_content_and_viewport ExpandedItemWidget.default
        body_item 5 2).map Prod.fst :=
  close_then_reexpand_same_content ExpandedItemWidget.default body_item 5 2
    (Or.inl (by decide))

/-! ## C7 — selection-to-scrollbar mapping -/

/-- The cumulative-height table has one entry per row. -/
theorem cum_from_length (hs : List Nat) :
    ∀ t : Nat, (cum_row_heights_from t hs).length = hs.length := by
  induction hs with
  | nil => intro t; rfl
  | cons x xs ih => intro t; simp [cum_row_heights_from, ih]

/-- Every entry of the cumulative-height table exceeds the running total it
started from, provided each row height is at least 1. -/
theorem cum_from_getD_lower (hs : List Nat) :
    ∀ (t i : Nat), (∀ x ∈ hs, 1 ≤ x) → i < hs.length →
      t + 1 ≤ (cum_row_heights_from t hs).getD i 0 := by
  induction hs with
  | nil => intro t i _ hi; simp at hi
  | cons x xs ih =>
    intro t i hpos hi
    cases i with
    | zero =>
      have hx : 1 ≤ x := hpos x (by simp)
      simp [cum_row_heights_from]
      omega
    | succ j =>
      have hj : j < xs.length := by simpa using hi
      have := ih (t + x) j (fun y hy => hpos y (by simp [hy])) hj
      simp only [cum_row_heights_from, List.getD_cons_succ]
      omega

/-- C7: after a feed scroll command, for every list of (positive) row
heights and every selection, the scrollbar position equals the cumulative
rendered height through the row before the (clamped) selected index, and it
is 0 exactly when the selected index is 0, regardless of the first row's
height. -/
theorem scroll_feed_scrollbar_maps_selection :
    ∀ (hs : List Nat), (∀ x ∈ hs, 1 ≤ x) → ∀ (selected : Option Nat),
      (scroll_feed_sb_position (cum_row_heights hs) selected =
        if clamped_selected (cum_row_heights hs) selected = 0 then 0
        else (cum_row_heights hs).getD
          (clamped_selected (cum_row_heights hs) selected - 1) 0) ∧
      (scroll_feed_sb_position (cum_row_heights hs) selected = 0 ↔
        clamped_selected (cum_row_heights hs) selected = 0) := by
  intro hs hpos selected
  have hlen : (cum_row_heights hs).length = hs.length := cum_from_length hs 0
  have hform : scroll_feed_sb_position (cum_row_heights hs) selected =
      if clamped_selected (cum_row_heights hs) selected = 0 then 0
      else (cum_row_heights hs).getD
        (clamped_selected (cum_row_heights hs) selected - 1) 0 := by
    by_cases h0 : clamped_selected (cum_row_heights hs) selected = 0
    · simp [scroll_feed_sb_position, h0]
    · have h1 : min (clamped_selected (cum_row_heights hs) selected) 1 = 1 := by
        omega
      simp [scroll_feed_sb_position, h0, h1]
  refine ⟨hform, ?_, ?_⟩
  · intro hz
    by_contra h0
    rw [hform, if_neg h0] at hz
    have hle : clamped_selected (cum_row_heights hs) selected ≤
        (cum_row_heights hs).length - 1 := Nat.min_le_right _ _
    have hi1 : clamped_selected (cum_row_heights hs) selected - 1 <
        hs.length := by omega
    have hlow := cum_from_getD_lower hs 0
      (clamped_selected (cum_row_heights hs) selected - 1) hpos hi1
    have hlow2 : 1 ≤ (cum_row_heights hs).getD
        (clamped_selected (cum_row_heights hs) selected - 1) 0 := hlow
    omega
  · intro h0
    rw [hform, if_pos h0]

/-- C7 witness: two rows of heights 3 and 2; selecting row 1 puts the
scrollbar at cumulative height 3, selecting row 0 puts it at 0. -/
theorem scroll_feed_scrollbar_maps_selection_witness :
    (scroll_feed_sb_position (cum_row_heights [3, 2]) (some 1) =
      if clamped_selected (cum_row_heights [3, 2]) (some 1) = 0 then 0
      else (cum_row_heights [3, 2]).getD
        (clamped_selected (cum_row_heights [3, 2]) (some 1) - 1) 0) ∧
    (scroll_feed_sb_position (cum_row_heights [3, 2]) (some 1) = 0 ↔
      clamped_selected (cum_row_heights [3, 2]) (some 1) = 0) :=
  scroll_feed_scrollbar_maps_selection [3, 2] (by decide) (some 1)

/-! ## C5 — debounced burst emits at most leading + trailing -/

/-- While suppressed (with the timer running), a run of rate-limited
arrivals followed by the timer firing emits the pending event that the
arrivals left behind: the last arrival if there was one, else whatever was
already buffered. -/
theorem rl_run_suppressed_then_timer (es : List TermEvent) :
    ∀ st : RateLimitedEventStream,
      (∀ e ∈ es, should_rate_limit e = true) →
      st.can_emit = false → st.timer_running = true →
      (rl_run st (es.map StreamInput.arrive ++ [StreamInput.timer_fire])).2 =
        match (match es.getLast? with
               | some x => some x
               | none => st.pending_event) with
        | some x => [x]
        | none => [] := by
  induction es with
  | nil =>
    intro st _ _ ht
    cases hp : st.pending_event <;>
      simp [rl_run, rl_step, ht, hp]
  | cons e es ih =>
    intro st hall hc ht
    have he : should_rate_limit e = true := hall e (by simp)
    have hstep : rl_step st (.arrive e) =
        ({ st with pending_event := some e }, []) := by
      simp [rl_step, he, hc]
    simp only [List.map_cons, List.cons_append, rl_run, hstep, List.append_eq]
    rw [ih { st with pending_event := some e }
      (fun x hx => hall x (by simp [hx])) hc ht]
    cases hes : es.getLast? with
    | some x =>
      have hcons : (e :: es).getLast? = some x := by
        cases es with
        | nil => simp at hes
        | cons c cs => rw [List.getLast?_cons_cons]; exact hes
      simp [hcons]
    | none =>
      have hnil : es = [] := List.getLast?_eq_none_iff.mp hes
      subst hnil
      simp

/-- C5: from the Open state, a burst of N coalescable (scroll) events
within less than one suppression window — so the timer first fires after
the burst — emits at most 2 events: the first event of the burst
immediately, and the payload of the last emitted event is the last event of
the burst (the intermediate events are overwritten, not queued). -/
theorem debounce_burst_two_events :
    ∀ (burst : List TermEvent), burst ≠ [] →
      (∀ e ∈ burst, should_rate_limit e = true) →
      (rl_run RateLimitedEventStream.new
        (burst.map StreamInput.arrive ++ [StreamInput.timer_fire])).2.length
        ≤ 2 ∧
      (rl_run RateLimitedEventStream.new
        (burst.map StreamInput.arrive ++ [StreamInput.timer_fire])).2.head?
        = burst.head? ∧
      (rl_run RateLimitedEventStream.new
        (burst.map StreamInput.arrive ++ [StreamInput.timer_fire])).2.getLast?
        = burst.getLast? := by
  intro burst hne hall
  obtain ⟨b, bs, rfl⟩ := List.exists_cons_of_ne_nil hne
  have hb : should_rate_limit b = true := hall b (by simp)
  have hstep1 : rl_step RateLimitedEventStream.new (.arrive b) =
      ({ timer_running := true, pending_event := none, can_emit := false },
        [b]) := by
    simp [rl_step, RateLimitedEventStream.new, hb]
  have hout : (rl_run RateLimitedEventStream.new
      ((b :: bs).map StreamInput.arrive ++ [StreamInput.timer_fire])).2 =
      b :: (rl_run
        { timer_running := true, pending_event := none, can_emit := false }
        (bs.map StreamInput.arrive ++ [StreamInput.timer_fire])).2 := by
    simp [rl_run, hstep1]
  have htail := rl_run_suppressed_then_timer bs
    { timer_running := true, pending_event := none, can_emit := false }
    (fun x hx => hall x (by simp [hx])) rfl rfl
  rw [hout, htail]
  cases hbs : bs.getLast? with
  | none =>
    have hnil : bs = [] := List.getLast?_eq_none_iff.mp hbs
    subst hnil
    simp
  | some x =>
    have hcons : (b :: bs).getLast? = some x := by
      cases bs with
      | nil => simp at hbs
      | cons c cs => rw [List.getLast?_cons_cons]; exact hbs
    simp [hcons]

/-- C5 witness: a three-event scroll burst emits exactly the first and the
last event. -/
theorem debounce_burst_two_events_witness :
    (rl_run RateLimitedEventStream.new
      (([TermEvent.key KeyCode.up, TermEvent.key KeyCode.down,
         TermEvent.key KeyCode.up].map StreamInput.arrive)
        ++ [StreamInput.timer_fire])).2.length ≤ 2 ∧
    (rl_run RateLimitedEventStream.new
      (([TermEvent.key KeyCode.up, TermEvent.key KeyCode.down,
         TermEvent.key KeyCode.up].map StreamInput.arrive)
        ++ [StreamInput.timer_fire])).2.head? =
      [TermEvent.key KeyCode.up, TermEvent.key KeyCode.down,
       TermEvent.key KeyCode.up].head? ∧
    (rl_run RateLimitedEventStream.new
      (([TermEvent.key KeyCode.up, TermEvent.key KeyCode.down,
         TermEvent.key KeyCode.up].map StreamInput.arrive)
        ++ [StreamInput.timer_fire])).2.getLast? =
      [TermEvent.key KeyCode.up, TermEvent.key KeyCode.down,
       TermEvent.key KeyCode.up].getLast? :=
  debounce_burst_two_events
    [TermEvent.key KeyCode.up, TermEvent.key KeyCode.down,
     TermEvent.key KeyCode.up]
    (by decide) (by decide)

/-! ## C8 — source-list parsing -/

/-- C8: an unreadable or missing source file yields an empty source list;
the scenario content yields exactly one configured source; and every
configured source is a trimmed, non-blank line of the file that parses as
an absolute URL (all other lines are silently skipped). -/
theorem feed_url_parsing :
    parse_feed_urls none = [] ∧
    (parse_feed_urls
      (some "  \nhttps://example.com/feed\nnot-a-url\n")).length = 1 ∧
    (∀ content line, line ∈ parse_feed_urls (some content) →
      line ∈ (rust_lines content).map
        (fun l => String.mk (trim_chars l.data)) ∧
      line ≠ "" ∧ is_absolute_url line = true) := by
  refine ⟨rfl, by decide, ?_⟩
  intro content line hmem
  simp only [parse_feed_urls, List.mem_filterMap] at hmem
  obtain ⟨a, ha, hfa⟩ := hmem
  by_cases h1 : a = ""
  · simp [h1] at hfa
  · by_cases h2 : is_absolute_url a = true
    · simp [h1, h2] at hfa
      subst hfa
      exact ⟨ha, h1, h2⟩
    · simp [h1, h2] at hfa

/-- C8 witness: the surviving line of the scenario content is a trimmed,
non-blank absolute URL. -/
theorem feed_url_parsing_witness :
    "https://example.com/feed" ∈
      (rust_lines "  \nhttps://example.com/feed\nnot-a-url\n").map
        (fun l => String.mk (trim_chars l.data)) ∧
    "https://example.com/feed" ≠ "" ∧
    is_absolute_url "https://example.com/feed" = true :=
  feed_url_parsing.2.2 "  \nhttps://example.com/feed\nnot-a-url\n"
    "https://example.com/feed" (by decide)

end Rssterm
